import Mathlib

/-! tsnet-hello-world: a shallow embedding of `main.go`.

The program is a small web server on top of an overlay-network client.  The
overlay client (`tsnet.Server`, its `LocalClient`) and the Go standard library
are collaborators: their results are inputs of the model, and every call the
program makes to them is recorded in a trace of events.

Go strings are modelled as Lean strings.  `len(s)` and the slices `s[:n]`,
`s[n:]` are taken on the character list; the two literals the program compares
against (`"Tailscale"`, `".mullvad.ts.net."`) are ASCII, so the comparisons
agree with the byte-wise ones of Go on every well-formed UTF-8 string.

Two choices of the Go runtime are inputs as well: the order in which a `range`
statement visits the peer map, and how far a template got before it failed.
-/

namespace TsnetHello

/-! ## Go primitives used by the program -/

/-- Go `len(s)`. -/
def len (s : String) : Nat := s.data.length

/-- Go slice `s[:n]`. -/
def sliceTo (s : String) (n : Nat) : String := String.mk (s.data.take n)

/-- Go slice `s[n:]`. -/
def sliceFrom (s : String) (n : Nat) : String := String.mk (s.data.drop n)

/-- Go `strings.HasSuffix`:
`len(s) >= len(suffix) && s[len(s)-len(suffix):] == suffix`. -/
def HasSuffix (s suffix : String) : Bool :=
  decide (len s ≥ len suffix) && decide (sliceFrom s (len s - len suffix) = suffix)

/-- The process environment: a variable is unset (`none`) or has a value. -/
abbrev Environ := String → Option String

/-- Go `os.Getenv`: the value of the variable, `""` when it is unset. -/
def Getenv (env : Environ) (key : String) : String := (env key).getD ""

/-- A Go `map[string]V`, kept as an association list with distinct keys. -/
abbrev GoMap (V : Type) := List (String × V)

/-- Go `m[k] = v`: overwrite the entry of `k`, or add one. -/
def GoMap.set {V : Type} : GoMap V → String → V → GoMap V
  | [], k, v => [(k, v)]
  | (k', v') :: t, k, v => if k' = k then (k, v) :: t else (k', v') :: GoMap.set t k v

/-- Go `v, ok := m[k]`. -/
def GoMap.get? {V : Type} (m : GoMap V) (k : String) : Option V := List.lookup k m

/-! ## Configuration (`main.go` lines 24-37) -/

/-- Source: `envOrDefault`. -/
def envOrDefault (env : Environ) (key defaultValue : String) : String :=
  let value := Getenv env key
  if value ≠ "" then value else defaultValue

/-- Source: package variable `hostname`. -/
def hostname (env : Environ) : String := envOrDefault env "TS_HOSTNAME" "ts-hello-world"

/-- Source: package variable `stateDir`. -/
def stateDir (env : Environ) : String := envOrDefault env "TS_STATE_DIR" "/var/lib/ts-hello-world"

/-- Source: package variable `authKey`. -/
def authKey (env : Environ) : String := Getenv env "TS_AUTHKEY"

/-- Source: package variable `enableServe`. -/
def enableServe (env : Environ) : Bool :=
  decide (envOrDefault env "TS_ENABLE_SERVE" "false" = "true")

/-- Source: package variable `enableFunnel`. -/
def enableFunnel (env : Environ) : Bool :=
  decide (envOrDefault env "TS_ENABLE_FUNNEL" "false" = "true")

/-! ## Listener selection (`main.go` lines 79-97) -/

/-- A call on the `tsnet.Server`, with its `network` and `addr` arguments. -/
inductive SrvCall where
  | ListenFunnel (network addr : String)
  | ListenTLS (network addr : String)
  | Listen (network addr : String)
  deriving DecidableEq, Repr

/-- The listener calls `main` makes for the given feature flags, in order. -/
def listen (enableServe enableFunnel : Bool) : List SrvCall :=
  let listenAddr := ":443"
  if enableFunnel then
    [SrvCall.ListenFunnel "tcp" listenAddr]
  else if enableServe then
    [SrvCall.ListenTLS "tcp" listenAddr]
  else
    [SrvCall.Listen "tcp" listenAddr]

/-- The listener calls of `main` under an environment. -/
def mainListen (env : Environ) : List SrvCall := listen (enableServe env) (enableFunnel env)

/-! ## Data model (`main.go` lines 39-59 and the collaborator's records) -/

/-- A `netip.Addr`, known to the program only through its `String()` text. -/
structure Addr where
  text : String
  deriving DecidableEq, Repr

/-- Go `addr.String()`. -/
def Addr.String (a : Addr) := a.text

/-- A `tailcfg.NodeID`, known to the program only through its `String()` text. -/
structure NodeID where
  text : String
  deriving DecidableEq, Repr

/-- Go `id.String()`. -/
def NodeID.String (i : NodeID) := i.text

/-- The fields of `ipnstate.PeerStatus` the program reads.  `ID` is the
`string(...)` conversion of the stable node ID; `Tags` is a pointer to a
slice view, `none` when nil. -/
structure PeerStatus where
  ID : String
  HostName : String
  DNSName : String
  TailscaleIPs : List Addr
  Tags : Option (List String)
  Online : Bool
  deriving DecidableEq, Repr

/-- The fields of `ipnstate.Status` the program reads.  `Peer` is a Go map
from the text of a node public key to the peer (`none` when nil).  The order
in which its entries are listed carries no meaning for the program: a `range`
statement visits them in an order of the runtime's choosing (`RangeOrder`). -/
structure Status where
  Version : String
  BackendState : String
  Self : Option PeerStatus
  Peer : Option (GoMap PeerStatus)
  deriving DecidableEq, Repr

/-- The order in which one `range` statement visits the entries of the peer
map.  Go leaves it unspecified and randomises it: every entry is visited once,
in some order, which may differ from one loop to the next. -/
structure RangeOrder where
  visit : GoMap PeerStatus → GoMap PeerStatus
  perm : ∀ m : GoMap PeerStatus, (visit m).Perm m

/-- What `tmpl.ExecuteTemplate(w, name, data)` did: the text it wrote into the
response writer (`none` when it made no write at all) and the error it
returned (`none` when it succeeded).  A template can fail after it has written
part of the page. -/
structure TemplateRun where
  written : Option String
  err : Option String
  deriving DecidableEq, Repr

/-- The fields of `tailcfg.UserProfile` the program reads. -/
structure UserProfile where
  LoginName : String
  DisplayName : String
  deriving DecidableEq, Repr

/-- The fields of `tailcfg.Node` the program reads. -/
structure Node where
  ID : NodeID
  Name : String
  ComputedName : String
  deriving DecidableEq, Repr

/-- The record returned by `WhoIs`: two pointers, `none` when nil. -/
structure WhoIsResponse where
  Node : Option Node
  UserProfile : Option UserProfile
  deriving DecidableEq, Repr

/-- Source: `type NodeInfo`. -/
structure NodeInfo where
  Name : String
  ID : String
  Addresses : List String
  Tags : List String
  Online : Bool
  deriving DecidableEq, Repr

/-- Source: `type PageData`. -/
structure PageData where
  Title : String
  UserLogin : String
  UserName : String
  NodeName : String
  NodeID : String
  TailnetName : String
  RemoteAddr : String
  EnableServe : Bool
  EnableFunnel : Bool
  Headers : GoMap String
  Nodes : List NodeInfo
  deriving DecidableEq, Repr

/-- The query handle returned by `srv.LocalClient()`.  Each operation returns
a Go pair `(value, error)`: a pointer that may be nil and an error that may be
nil, the error kept as its text. -/
structure LocalClient where
  WhoIs : String → Option WhoIsResponse × Option String
  Status : Option Status × Option String

/-- The parts of `*http.Request` the handlers read. -/
structure Request where
  Path : String
  RemoteAddr : String
  Header : List (String × List String)
  deriving DecidableEq, Repr

/-- A value stored in the `self` object of the status response. -/
inductive Leaf where
  | str (s : String)
  | bool (b : Bool)
  | addrs (l : List Addr)
  deriving DecidableEq, Repr

/-- A value stored under a top-level key of the status response. -/
inductive Value where
  | str (s : String)
  | bool (b : Bool)
  | obj (m : GoMap Leaf)
  deriving DecidableEq, Repr

/-- What a handler wrote as the body. -/
inductive Body where
  | text (s : String)
  | json (m : GoMap Value)
  deriving DecidableEq, Repr

/-- An HTTP response: status code, the `Content-Type` the handler set (if
any) and the body. -/
structure Response where
  code : Nat
  contentType : Option String
  body : Body
  deriving DecidableEq, Repr

/-- A call a handler makes to a collaborator. -/
inductive Event where
  | WhoIs (remoteAddr : String)
  | Status
  | Printf (msg : String)
  | ExecuteTemplate (name : String) (data : PageData)
  deriving DecidableEq, Repr

/-- The run of a handler: the calls it made, in order, and the response it
wrote; `none` when the handler panicked (nil dereference, index out of
range). -/
structure Outcome where
  trace : List Event
  response : Option Response
  deriving DecidableEq, Repr

/-- Go `http.Error(w, msg, code)`. -/
def httpError (msg : String) (code : Nat) : Response :=
  { code := code, contentType := some "text/plain; charset=utf-8", body := Body.text (msg ++ "\n") }

/-- Go `http.NotFound(w, r)`. -/
def httpNotFound : Response := httpError "404 page not found" 404

/-! ## The `GET /` handler (`main.go` lines 114-203) -/

/-- The loop `for _, addr := range ips { acc = append(acc, addr.String()) }`. -/
def appendAddresses (acc : List String) (ips : List Addr) : List String :=
  ips.foldl (fun a addr => a ++ [addr.String]) acc

/-- The guarded loop
`if tags != nil { for i := 0; i < tags.Len(); i++ { acc = append(acc, tags.At(i)) } }`. -/
def appendTags (acc : List String) (tags : Option (List String)) : List String :=
  match tags with
  | none => acc
  | some t => (List.range t.length).foldl (fun a i => a ++ [t.getD i ""]) acc

/-- The body of the peer loop: skip a Mullvad exit node, else append its entry. -/
def peerStep (nodes : List NodeInfo) (peer : PeerStatus) : List NodeInfo :=
  if HasSuffix peer.DNSName ".mullvad.ts.net." then
    nodes
  else
    let node : NodeInfo :=
      { Name := peer.HostName, ID := peer.ID, Addresses := [], Tags := [], Online := peer.Online }
    let node := { node with Addresses := appendAddresses node.Addresses peer.TailscaleIPs }
    let node := { node with Tags := appendTags node.Tags peer.Tags }
    nodes ++ [node]

/-- The node list built by the handler from the status pointer (lines 131-176);
`ro` is the order in which the `range` over `status.Peer` visits the map. -/
def buildNodes (ro : RangeOrder) (status : Option Status) : List NodeInfo :=
  let nodes : List NodeInfo := []
  match status with
  | none => nodes
  | some status =>
    let nodes :=
      match status.Self with
      | none => nodes
      | some s =>
        let self : NodeInfo :=
          { Name := s.HostName ++ " (this node)", ID := s.ID, Addresses := [], Tags := [],
            Online := s.Online }
        let self := { self with Addresses := appendAddresses self.Addresses s.TailscaleIPs }
        let self := { self with Tags := appendTags self.Tags s.Tags }
        nodes ++ [self]
    match status.Peer with
    | none => nodes
    | some peers => (ro.visit peers).foldl (fun nodes kv => peerStep nodes kv.2) nodes

/-- The body of the header loop: `none` when `values[0]` is out of range. -/
def headerStep (headers : Option (GoMap String)) (kv : String × List String) :
    Option (GoMap String) :=
  match headers with
  | none => none
  | some headers =>
    if len kv.1 ≥ 9 ∧ sliceTo kv.1 9 = "Tailscale" then
      match kv.2 with
      | [] => none
      | v :: _ => some (GoMap.set headers kv.1 v)
    else
      some headers

/-- The header extraction (lines 178-184), over the entries of `r.Header` in
the order `range` visits them. -/
def extractHeaders (header : List (String × List String)) : Option (GoMap String) :=
  header.foldl headerStep (some [])

/-- The response after `tmpl.ExecuteTemplate(w, ...)` and, when it returned an
error, `http.Error(w, err.Error(), 500)` (lines 200-202).  The first write
into `w` sends status 200, so an error that comes after a write cannot change
the status or the headers any more: its text is appended to the partial page.
Only when nothing was written does the error become a 500 response. -/
def templateResponse (run : TemplateRun) : Response :=
  match run.err with
  | none => { code := 200, contentType := none, body := Body.text (run.written.getD "") }
  | some e =>
    match run.written with
    | none => httpError e 500
    | some page => { code := 200, contentType := none, body := Body.text (page ++ e ++ "\n") }

/-- Source: the handler registered on `"/"`.  `tmpl name data` is the run of
`tmpl.ExecuteTemplate(w, name, data)`; `ro` is the order in which the `range`
over `status.Peer` visits the map. -/
def indexHandler (env : Environ) (ro : RangeOrder) (lc : LocalClient)
    (tmpl : String → PageData → TemplateRun) (r : Request) : Outcome :=
  if r.Path ≠ "/" then
    { trace := [], response := some httpNotFound }
  else
    match lc.WhoIs r.RemoteAddr with
    | (_, some err) =>
      { trace := [Event.WhoIs r.RemoteAddr],
        response := some (httpError ("WhoIs error: " ++ err) 500) }
    | (who, none) =>
      let (status, err) := lc.Status
      let logged : List Event :=
        match err with
        | some e => [Event.Printf ("Error getting status: " ++ e)]
        | none => []
      let trace := [Event.WhoIs r.RemoteAddr, Event.Status] ++ logged
      let nodes := buildNodes ro status
      match extractHeaders r.Header with
      | none => { trace := trace, response := none }
      | some headers =>
        match who with
        | none => { trace := trace, response := none }
        | some who =>
          match who.UserProfile, who.Node with
          | some profile, some node =>
            let data : PageData :=
              { Title := "Tailscale tsnet Demo",
                UserLogin := profile.LoginName,
                UserName := profile.DisplayName,
                NodeName := node.ComputedName,
                NodeID := node.ID.String,
                TailnetName := node.Name,
                RemoteAddr := r.RemoteAddr,
                EnableServe := enableServe env,
                EnableFunnel := enableFunnel env,
                Headers := headers,
                Nodes := nodes }
            { trace := trace ++ [Event.ExecuteTemplate "index.html" data],
              response := some (templateResponse (tmpl "index.html" data)) }
          | _, _ => { trace := trace, response := none }

/-! ## The `GET /api/status` handler (`main.go` lines 206-236) -/

/-- The response map built by the status handler (lines 213-232). -/
def statusResponse (env : Environ) (status : Option Status) : GoMap Value :=
  let response : GoMap Value :=
    [("hostname", Value.str (hostname env)),
     ("serve_enabled", Value.bool (enableServe env)),
     ("funnel_enabled", Value.bool (enableFunnel env)),
     ("state_dir", Value.str (stateDir env))]
  match status with
  | none => response
  | some status =>
    let response := GoMap.set response "version" (Value.str status.Version)
    let response := GoMap.set response "backend_state" (Value.str status.BackendState)
    match status.Self with
    | none => response
    | some s =>
      GoMap.set response "self" (Value.obj
        [("name", Leaf.str s.HostName),
         ("id", Leaf.str s.ID),
         ("addresses", Leaf.addrs s.TailscaleIPs),
         ("online", Leaf.bool s.Online)])

/-- Source: the handler registered on `"/api/status"`. -/
def statusHandler (env : Environ) (lc : LocalClient) : Outcome :=
  match lc.Status with
  | (_, some err) =>
    { trace := [Event.Status], response := some (httpError ("Status error: " ++ err) 500) }
  | (status, none) =>
    { trace := [Event.Status],
      response := some { code := 200, contentType := some "application/json",
                         body := Body.json (statusResponse env status) } }

/-! ## Specification vocabulary -/

/-- Spec: the string `s` ends with the literal `suffix`. -/
def EndsWith (s suffix : String) : Prop := ∃ front : String, s = front ++ suffix

/-- Spec: the string `s` starts with the literal `pre`. -/
def StartsWith (s pre : String) : Prop := ∃ rest : String, s = pre ++ rest

/-- Spec: the peers of a snapshot, as the snapshot lists them. -/
def snapshotPeers (st : Status) : List PeerStatus := (st.Peer.getD []).map Prod.snd

/-- The peers of a snapshot in the order the `range` statement visits them. -/
def visitedPeers (ro : RangeOrder) (st : Status) : List PeerStatus :=
  (ro.visit (st.Peer.getD [])).map Prod.snd

/-- Spec: the entry shown for a peer. -/
def peerEntry (p : PeerStatus) : NodeInfo :=
  { Name := p.HostName, ID := p.ID, Addresses := p.TailscaleIPs.map Addr.String,
    Tags := p.Tags.getD [], Online := p.Online }

/-- Spec: the entry shown for the local node. -/
def selfEntry (s : PeerStatus) : NodeInfo :=
  { Name := s.HostName ++ " (this node)", ID := s.ID,
    Addresses := s.TailscaleIPs.map Addr.String, Tags := s.Tags.getD [], Online := s.Online }

/-- Spec: the keys of the JSON object a handler emitted; none when the body is
not a JSON object or the handler wrote no response. -/
def Outcome.jsonKeys (o : Outcome) : List String :=
  match o.response with
  | some r =>
    match r.body with
    | Body.json m => m.map Prod.fst
    | Body.text _ => []
  | none => []

/-! ## Concrete inputs used to exercise the theorems -/

/-- A local node with one address and one tag. -/
def sampleSelf : PeerStatus :=
  { ID := "n0", HostName := "me", DNSName := "me.tail.ts.net.",
    TailscaleIPs := [⟨"100.64.0.1"⟩], Tags := some ["tag:web"], Online := true }

/-- An ordinary peer. -/
def peerAlpha : PeerStatus :=
  { ID := "n1", HostName := "alpha", DNSName := "alpha.tail.ts.net.",
    TailscaleIPs := [⟨"100.64.0.2"⟩], Tags := none, Online := false }

/-- Another ordinary peer. -/
def peerBeta : PeerStatus :=
  { ID := "n2", HostName := "beta", DNSName := "beta.tail.ts.net.",
    TailscaleIPs := [], Tags := some [], Online := true }

/-- A peer map with two ordinary peers. -/
def samplePeers : GoMap PeerStatus :=
  [("nodekey:a1", peerAlpha), ("nodekey:b2", peerBeta)]

/-- A `range` that visits the entries as they are listed. -/
def rangeAsListed : RangeOrder :=
  { visit := fun m => m, perm := fun m => List.Perm.refl m }

/-- A `range` that visits the entries in the opposite order. -/
def rangeReversed : RangeOrder :=
  { visit := fun m => m.reverse, perm := fun m => List.reverse_perm m }

/-- A snapshot with a self node and two ordinary peers. -/
def sampleStatus : Status :=
  { Version := "1.80.0", BackendState := "Running", Self := some sampleSelf,
    Peer := some samplePeers }


/-- An environment that sets only the host name and the funnel flag. -/
def sampleEnv : Environ := fun key =>
  if key = "TS_HOSTNAME" then some "demo"
  else if key = "TS_ENABLE_FUNNEL" then some "true"
  else if key = "TS_ENABLE_SERVE" then some "TRUE"
  else none

/-- An identity record. -/
def sampleWho : WhoIsResponse :=
  { Node := some { ID := ⟨"nodeid:2a"⟩, Name := "laptop.tail.ts.net.", ComputedName := "laptop" },
    UserProfile := some { LoginName := "ann@example.com", DisplayName := "Ann" } }

/-- A client whose identity query fails. -/
def whoIsFailsClient : LocalClient :=
  { WhoIs := fun _ => (none, some "no match for IP:port"), Status := (some sampleStatus, none) }

/-- A client whose topology query fails. -/
def statusFailsClient : LocalClient :=
  { WhoIs := fun _ => (some sampleWho, none), Status := (none, some "connection refused") }

/-- A client both of whose queries succeed. -/
def sampleClient : LocalClient :=
  { WhoIs := fun _ => (some sampleWho, none), Status := (some sampleStatus, none) }

/-- A template that renders the title and the number of nodes. -/
def sampleTmpl : String → PageData → TemplateRun := fun name data =>
  if name = "index.html" then
    { written := some (data.Title ++ ":" ++ toString data.Nodes.length), err := none }
  else
    { written := none, err := some ("template " ++ name ++ " is undefined") }

/-- A template set in which `index.html` fails before it writes anything. -/
def failingTmpl : String → PageData → TemplateRun := fun _ _ =>
  { written := none, err := some "template: no template index.html" }

/-- A request for the index page with one overlay header and one other. -/
def sampleRequest : Request :=
  { Path := "/", RemoteAddr := "100.64.0.7:51820",
    Header := [("Tailscale-User-Login", ["ann@example.com"]), ("X-Other", ["1"])] }

/-- A request for a path that does not exist. -/
def otherPathRequest : Request :=
  { Path := "/nonexistent", RemoteAddr := "100.64.0.7:51820", Header := [] }

/-! ## Lemmas on the primitives -/

theorem string_ext_data {a b : String} (h : a.data = b.data) : a = b := by
  cases a; cases b; simp_all

theorem hasSuffix_iff (s suffix : String) : HasSuffix s suffix = true ↔ EndsWith s suffix := by
  unfold HasSuffix EndsWith sliceFrom len
  constructor
  · intro h
    simp only [Bool.and_eq_true, decide_eq_true_eq] at h
    obtain ⟨_, h2⟩ := h
    generalize s.data.length - suffix.data.length = n at h2
    refine ⟨String.mk (s.data.take n), ?_⟩
    apply string_ext_data
    rw [String.data_append, ← h2]
    exact (List.take_append_drop n s.data).symm
  · rintro ⟨front, rfl⟩
    simp only [Bool.and_eq_true, decide_eq_true_eq, String.data_append, List.length_append]
    refine ⟨by omega, ?_⟩
    apply string_ext_data
    simp

theorem hasPrefix_iff (s pre : String) :
    (len s ≥ len pre ∧ sliceTo s (len pre) = pre) ↔ StartsWith s pre := by
  unfold StartsWith sliceTo len
  constructor
  · rintro ⟨_, h⟩
    generalize pre.data.length = n at h
    refine ⟨String.mk (s.data.drop n), ?_⟩
    apply string_ext_data
    rw [String.data_append, ← h]
    exact (List.take_append_drop n s.data).symm
  · rintro ⟨rest, rfl⟩
    refine ⟨by simp, ?_⟩
    apply string_ext_data
    simp

instance (s suffix : String) : Decidable (EndsWith s suffix) :=
  decidable_of_iff _ (hasSuffix_iff s suffix)

instance (s pre : String) : Decidable (StartsWith s pre) :=
  decidable_of_iff _ (hasPrefix_iff s pre)

theorem appendAddresses_eq (acc : List String) (ips : List Addr) :
    appendAddresses acc ips = acc ++ ips.map Addr.String := by
  unfold appendAddresses
  induction ips generalizing acc with
  | nil => simp
  | cons a t ih => simp [List.foldl_cons, ih]

theorem foldl_snoc_eq_map {α β : Type} (f : α → β) (l : List α) (acc : List β) :
    l.foldl (fun a i => a ++ [f i]) acc = acc ++ l.map f := by
  induction l generalizing acc with
  | nil => simp
  | cons a t ih => simp [List.foldl_cons, ih]

theorem map_range_getD (t : List String) :
    (List.range t.length).map (fun i => t.getD i "") = t := by
  apply List.ext_getElem
  · simp
  · intro n h1 h2
    simp at h1
    simp [List.getD_eq_getElem?_getD, h1]

theorem appendTags_eq (acc : List String) (tags : Option (List String)) :
    appendTags acc tags = acc ++ tags.getD [] := by
  cases tags with
  | none => simp [appendTags]
  | some t => simp only [appendTags, foldl_snoc_eq_map, map_range_getD, Option.getD_some]

theorem peerStep_eq (nodes : List NodeInfo) (p : PeerStatus) :
    peerStep nodes p =
      if HasSuffix p.DNSName ".mullvad.ts.net." then nodes else nodes ++ [peerEntry p] := by
  unfold peerStep peerEntry
  split
  · rfl
  · simp [appendAddresses_eq, appendTags_eq]

theorem foldl_peerStep (peers : List PeerStatus) (nodes : List NodeInfo) :
    peers.foldl peerStep nodes =
      nodes ++ (peers.filter (fun p => !HasSuffix p.DNSName ".mullvad.ts.net.")).map peerEntry := by
  induction peers generalizing nodes with
  | nil => simp
  | cons p t ih =>
    rw [List.foldl_cons, ih, peerStep_eq]
    by_cases h : HasSuffix p.DNSName ".mullvad.ts.net." = true
    · simp [h]
    · simp [h]

theorem visit_nil (ro : RangeOrder) : ro.visit [] = [] :=
  List.Perm.eq_nil (ro.perm [])

theorem visitedPeers_perm (ro : RangeOrder) (st : Status) :
    (visitedPeers ro st).Perm (snapshotPeers st) :=
  List.Perm.map Prod.snd (ro.perm (st.Peer.getD []))

theorem buildNodes_eq (ro : RangeOrder) (st : Status) :
    buildNodes ro (some st) =
      (st.Self.map selfEntry).toList ++
        ((visitedPeers ro st).filter
          (fun p => !HasSuffix p.DNSName ".mullvad.ts.net.")).map peerEntry := by
  have hfold : ∀ (m : GoMap PeerStatus) (nodes : List NodeInfo),
      m.foldl (fun nodes kv => peerStep nodes kv.2) nodes =
        nodes ++ ((m.map Prod.snd).filter
          (fun p => !HasSuffix p.DNSName ".mullvad.ts.net.")).map peerEntry := by
    intro m nodes
    rw [← foldl_peerStep, List.foldl_map]
  unfold buildNodes visitedPeers
  cases hs : st.Self with
  | none =>
    cases hp : st.Peer with
    | none => simp [hs, hp, visit_nil]
    | some peers => simp [hs, hp, hfold]
  | some s =>
    cases hp : st.Peer with
    | none => simp [hs, hp, visit_nil, selfEntry, appendAddresses_eq, appendTags_eq]
    | some peers => simp [hs, hp, hfold, selfEntry, appendAddresses_eq, appendTags_eq]

theorem tailscalePrefix_iff (k : String) :
    (len k ≥ 9 ∧ sliceTo k 9 = "Tailscale") ↔ StartsWith k "Tailscale" :=
  hasPrefix_iff k "Tailscale"

theorem get?_set {V : Type} (m : GoMap V) (k0 : String) (v0 : V) (k : String) :
    (GoMap.set m k0 v0).get? k = if k = k0 then some v0 else m.get? k := by
  induction m with
  | nil =>
    by_cases h : k = k0
    · simp [GoMap.set, GoMap.get?, List.lookup, h]
    · have hb : (k == k0) = false := by simpa using h
      simp [GoMap.set, GoMap.get?, List.lookup, h, hb]
  | cons p t ih =>
    obtain ⟨k', v'⟩ := p
    unfold GoMap.get? at ih ⊢
    by_cases h1 : k' = k0
    · by_cases h : k = k0
      · simp [GoMap.set, List.lookup, h1, h]
      · have hb : (k == k0) = false := by simpa using h
        simp [GoMap.set, List.lookup, h1, h, hb]
    · by_cases h : k = k'
      · have h2 : ¬ k = k0 := by rw [h]; exact h1
        simp [GoMap.set, List.lookup, h1, h, h2]
      · have hb : (k == k') = false := by simpa using h
        simp [GoMap.set, List.lookup, h1, h, hb, ih]

theorem headerStep_some (m : GoMap String) (k : String) (vs : List String) :
    headerStep (some m) (k, vs) =
      if StartsWith k "Tailscale" then
        (match vs with
         | [] => none
         | v :: _ => some (GoMap.set m k v))
      else some m := by
  simp only [headerStep]
  by_cases h : StartsWith k "Tailscale"
  · rw [if_pos h, if_pos ((tailscalePrefix_iff k).mpr h)]
  · rw [if_neg h, if_neg (fun hh => h ((tailscalePrefix_iff k).mp hh))]

theorem foldl_headerStep (hdr : List (String × List String)) (m : GoMap String)
    (hne : ∀ kv ∈ hdr, kv.2 ≠ []) (hnd : (hdr.map Prod.fst).Nodup) :
    ∃ m', hdr.foldl headerStep (some m) = some m' ∧
      ∀ k v, m'.get? k = some v ↔
        (StartsWith k "Tailscale" ∧ ∃ vs, (k, v :: vs) ∈ hdr) ∨
        (¬ (StartsWith k "Tailscale" ∧ k ∈ hdr.map Prod.fst) ∧ m.get? k = some v) := by
  induction hdr generalizing m with
  | nil => exact ⟨m, rfl, by simp⟩
  | cons p t ih =>
    obtain ⟨k0, vs0⟩ := p
    have hne' : ∀ kv ∈ t, kv.2 ≠ [] := fun kv hkv => hne kv (List.mem_cons_of_mem _ hkv)
    rw [List.map_cons, List.nodup_cons] at hnd
    obtain ⟨hk0, hnd'⟩ := hnd
    have hk0' : ∀ vs, (k0, vs) ∉ t := fun vs hmem =>
      hk0 (List.mem_map.mpr ⟨(k0, vs), hmem, rfl⟩)
    rw [List.foldl_cons, headerStep_some]
    by_cases hp : StartsWith k0 "Tailscale"
    · rw [if_pos hp]
      cases vs0 with
      | nil => exact absurd rfl (hne (k0, []) (List.mem_cons_self _ _))
      | cons v0 rest =>
        obtain ⟨m', hm', hget⟩ := ih (GoMap.set m k0 v0) hne' hnd'
        refine ⟨m', hm', ?_⟩
        intro k v
        rw [hget, get?_set]
        by_cases hk : k = k0
        · subst hk
          simp [hp, hk0, hk0']
          exact eq_comm
        · simp [hk]
    · rw [if_neg hp]
      obtain ⟨m', hm', hget⟩ := ih m hne' hnd'
      refine ⟨m', hm', ?_⟩
      intro k v
      rw [hget]
      by_cases hk : k = k0
      · subst hk
        simp [hp]
      · simp [hk]

theorem foldl_headerStep_isSome (hdr : List (String × List String)) (m : GoMap String)
    (hne : ∀ kv ∈ hdr, kv.2 ≠ []) :
    ∃ m', hdr.foldl headerStep (some m) = some m' := by
  induction hdr generalizing m with
  | nil => exact ⟨m, rfl⟩
  | cons p t ih =>
    obtain ⟨k0, vs0⟩ := p
    have hne' : ∀ kv ∈ t, kv.2 ≠ [] := fun kv hkv => hne kv (List.mem_cons_of_mem _ hkv)
    rw [List.foldl_cons, headerStep_some]
    by_cases hp : StartsWith k0 "Tailscale"
    · rw [if_pos hp]
      cases vs0 with
      | nil => exact absurd rfl (hne (k0, []) (List.mem_cons_self _ _))
      | cons v0 rest => exact ih (GoMap.set m k0 v0) hne'
    · rw [if_neg hp]
      exact ih m hne'

/-! ## The claims -/

/-- C1 (amended): for every status snapshot and every order in which the
`range` statement visits the peer map, the node list of the `GET /` handler is
the entry of the local node (when there is one) followed by the entries of the
visited peers whose DNS name does not end with `.mullvad.ts.net.`, each entry
carrying the peer's host name, ID, address texts, tags and online flag; a peer
whose DNS name has the suffix contributes no entry, and the peers that do
contribute are a permutation of the unsuffixed peers of the snapshot. -/
theorem buildNodes_skips_mullvad_permutes_rest (ro : RangeOrder) (st : Status) :
    buildNodes ro (some st) =
      (st.Self.map selfEntry).toList ++
        ((visitedPeers ro st).filter
          (fun p => decide (¬ EndsWith p.DNSName ".mullvad.ts.net."))).map
          (fun p =>
            ({ Name := p.HostName, ID := p.ID, Addresses := p.TailscaleIPs.map Addr.String,
               Tags := p.Tags.getD [], Online := p.Online } : NodeInfo)) ∧
    ((visitedPeers ro st).filter
        (fun p => decide (¬ EndsWith p.DNSName ".mullvad.ts.net."))).Perm
      ((snapshotPeers st).filter
        (fun p => decide (¬ EndsWith p.DNSName ".mullvad.ts.net."))) := by
  refine ⟨?_, List.Perm.filter _ (visitedPeers_perm ro st)⟩
  rw [buildNodes_eq]
  congr 2
  apply List.filter_congr
  intro p _
  by_cases h : HasSuffix p.DNSName ".mullvad.ts.net." = true
  · simp [h, (hasSuffix_iff _ _).mp h]
  · have h2 : ¬ EndsWith p.DNSName ".mullvad.ts.net." := fun hh => h ((hasSuffix_iff _ _).mpr hh)
    simp [h, h2]

/-- C1 as stated fails: one snapshot with the peers alpha and beta gives the
entries in the order alpha, beta under one visiting order of the map and beta,
alpha under another, so no order of the snapshot's peers is the order of the
entries in every run. -/
theorem buildNodes_order_not_fixed_by_snapshot :
    (buildNodes rangeAsListed (some sampleStatus)).map NodeInfo.Name =
        ["me (this node)", "alpha", "beta"] ∧
    (buildNodes rangeReversed (some sampleStatus)).map NodeInfo.Name =
        ["me (this node)", "beta", "alpha"] ∧
    ¬ ∃ order : List PeerStatus, ∀ ro : RangeOrder,
        buildNodes ro (some sampleStatus) =
          (sampleStatus.Self.map selfEntry).toList ++
            (order.filter (fun p => decide (¬ EndsWith p.DNSName ".mullvad.ts.net."))).map
              peerEntry := by
  refine ⟨by decide, by decide, ?_⟩
  rintro ⟨order, h⟩
  have h1 := h rangeAsListed
  have h2 := h rangeReversed
  rw [← h2] at h1
  exact absurd h1 (by decide)

/-- C2: for a snapshot with a self node and N peers none of which has the
`.mullvad.ts.net.` suffix, the node list has length N+1 and its first element
is the self node: name `HostName ++ " (this node)"`, with the self node's ID,
address texts, tags and online flag; this holds whatever order the peer map is
visited in. -/
theorem buildNodes_self_first (ro : RangeOrder) (st : Status) (s : PeerStatus)
    (hs : st.Self = some s)
    (hnone : ∀ p ∈ snapshotPeers st, ¬ EndsWith p.DNSName ".mullvad.ts.net.") :
    (buildNodes ro (some st)).length = (snapshotPeers st).length + 1 ∧
      (buildNodes ro (some st))[0]? =
        some { Name := s.HostName ++ " (this node)", ID := s.ID,
               Addresses := s.TailscaleIPs.map Addr.String,
               Tags := s.Tags.getD [], Online := s.Online } := by
  have hf : (visitedPeers ro st).filter (fun p => !HasSuffix p.DNSName ".mullvad.ts.net.") =
      visitedPeers ro st := by
    apply List.filter_eq_self.mpr
    intro p hp
    have hp' : p ∈ snapshotPeers st := (visitedPeers_perm ro st).mem_iff.mp hp
    have h2 : ¬ HasSuffix p.DNSName ".mullvad.ts.net." = true :=
      fun hh => hnone p hp' ((hasSuffix_iff _ _).mp hh)
    simpa using h2
  rw [buildNodes_eq, hf, hs]
  simp [selfEntry, (visitedPeers_perm ro st).length_eq]

/-- Witness of C2: a self node and two ordinary peers, visited in reverse,
give three entries with the self node first. -/
theorem buildNodes_self_first_witness :
    sampleStatus.Self = some sampleSelf ∧
    (∀ p ∈ snapshotPeers sampleStatus, ¬ EndsWith p.DNSName ".mullvad.ts.net.") ∧
    (buildNodes rangeReversed (some sampleStatus)).length =
      (snapshotPeers sampleStatus).length + 1 ∧
      (buildNodes rangeReversed (some sampleStatus))[0]? =
        some { Name := sampleSelf.HostName ++ " (this node)", ID := sampleSelf.ID,
               Addresses := sampleSelf.TailscaleIPs.map Addr.String,
               Tags := sampleSelf.Tags.getD [], Online := sampleSelf.Online } :=
  ⟨rfl, by decide, buildNodes_self_first rangeReversed sampleStatus sampleSelf rfl (by decide)⟩

/-- C5: when the topology call of `GET /api/status` returns an error, the
response is 500 with the error text in the body, the body is plain text and
not a JSON object, and no `version` or `self` key is emitted. -/
theorem statusHandler_error (env : Environ) (lc : LocalClient) (st : Option Status)
    (e : String) (herr : lc.Status = (st, some e)) :
    statusHandler env lc =
        { trace := [Event.Status],
          response := some { code := 500, contentType := some "text/plain; charset=utf-8",
                             body := Body.text ("Status error: " ++ e ++ "\n") } } ∧
      "version" ∉ (statusHandler env lc).jsonKeys ∧
      "self" ∉ (statusHandler env lc).jsonKeys := by
  have h : statusHandler env lc =
      { trace := [Event.Status],
        response := some { code := 500, contentType := some "text/plain; charset=utf-8",
                           body := Body.text ("Status error: " ++ e ++ "\n") } } := by
    simp [statusHandler, herr, httpError]
  rw [h]
  simp [Outcome.jsonKeys]

/-- Witness of C5: a client whose topology query is refused. -/
theorem statusHandler_error_witness :
    statusFailsClient.Status = (none, some "connection refused") ∧
    (statusHandler sampleEnv statusFailsClient =
        { trace := [Event.Status],
          response := some { code := 500, contentType := some "text/plain; charset=utf-8",
                             body := Body.text ("Status error: " ++ "connection refused" ++ "\n") } } ∧
      "version" ∉ (statusHandler sampleEnv statusFailsClient).jsonKeys ∧
      "self" ∉ (statusHandler sampleEnv statusFailsClient).jsonKeys) :=
  ⟨rfl, statusHandler_error sampleEnv statusFailsClient none "connection refused" rfl⟩

/-- C6: on the exact path `/`, when `WhoIs` on the remote address returns an
error, the handler answers 500 with the error text and its only call is that
`WhoIs`: the topology query is not called and no template is rendered. -/
theorem indexHandler_whoIs_error (env : Environ) (ro : RangeOrder) (lc : LocalClient)
    (tmpl : String → PageData → TemplateRun) (r : Request)
    (who : Option WhoIsResponse) (e : String)
    (hpath : r.Path = "/") (herr : lc.WhoIs r.RemoteAddr = (who, some e)) :
    indexHandler env ro lc tmpl r =
        { trace := [Event.WhoIs r.RemoteAddr],
          response := some { code := 500, contentType := some "text/plain; charset=utf-8",
                             body := Body.text ("WhoIs error: " ++ e ++ "\n") } } ∧
      Event.Status ∉ (indexHandler env ro lc tmpl r).trace ∧
      ∀ name data, Event.ExecuteTemplate name data ∉ (indexHandler env ro lc tmpl r).trace := by
  have h : indexHandler env ro lc tmpl r =
      { trace := [Event.WhoIs r.RemoteAddr],
        response := some { code := 500, contentType := some "text/plain; charset=utf-8",
                           body := Body.text ("WhoIs error: " ++ e ++ "\n") } } := by
    simp [indexHandler, hpath, herr, httpError]
  rw [h]
  simp

/-- Witness of C6: a client that cannot resolve the caller. -/
theorem indexHandler_whoIs_error_witness :
    sampleRequest.Path = "/" ∧
    whoIsFailsClient.WhoIs sampleRequest.RemoteAddr = (none, some "no match for IP:port") ∧
    (indexHandler sampleEnv rangeReversed whoIsFailsClient sampleTmpl sampleRequest =
        { trace := [Event.WhoIs sampleRequest.RemoteAddr],
          response := some { code := 500, contentType := some "text/plain; charset=utf-8",
                             body := Body.text ("WhoIs error: " ++ "no match for IP:port" ++ "\n") } } ∧
      Event.Status ∉ (indexHandler sampleEnv rangeReversed whoIsFailsClient sampleTmpl sampleRequest).trace ∧
      ∀ name data, Event.ExecuteTemplate name data ∉
        (indexHandler sampleEnv rangeReversed whoIsFailsClient sampleTmpl sampleRequest).trace) :=
  ⟨rfl, rfl,
    indexHandler_whoIs_error sampleEnv rangeReversed whoIsFailsClient sampleTmpl sampleRequest none
      "no match for IP:port" rfl rfl⟩

/-- C10: a request dispatched to the `/` handler with any other path gets 404,
and the handler calls nothing: no `WhoIs`, no `Status`, no template. -/
theorem indexHandler_other_path (env : Environ) (ro : RangeOrder) (lc : LocalClient)
    (tmpl : String → PageData → TemplateRun) (r : Request)
    (hpath : r.Path ≠ "/") :
    indexHandler env ro lc tmpl r =
      { trace := [],
        response := some { code := 404, contentType := some "text/plain; charset=utf-8",
                           body := Body.text ("404 page not found" ++ "\n") } } := by
  simp [indexHandler, hpath, httpNotFound, httpError]

/-- Witness of C10: `GET /nonexistent`. -/
theorem indexHandler_other_path_witness :
    otherPathRequest.Path ≠ "/" ∧
    indexHandler sampleEnv rangeReversed sampleClient sampleTmpl otherPathRequest =
      { trace := [],
        response := some { code := 404, contentType := some "text/plain; charset=utf-8",
                           body := Body.text ("404 page not found" ++ "\n") } } :=
  ⟨by decide, indexHandler_other_path sampleEnv rangeReversed sampleClient sampleTmpl otherPathRequest
    (by decide)⟩

/-- C9: for every pair of feature flags exactly one listener call is made, on
network `tcp` at address `:443`: the funneled listener when funnel is enabled
(whatever serve is), else the TLS listener when serve is enabled, else the
plain listener. -/
theorem listen_precedence (serve funnel : Bool) :
    listen serve funnel =
      [if funnel = true then SrvCall.ListenFunnel "tcp" ":443"
       else if serve = true then SrvCall.ListenTLS "tcp" ":443"
       else SrvCall.Listen "tcp" ":443"] ∧
    (listen serve funnel).length = 1 ∧
    (funnel = true → listen serve funnel = [SrvCall.ListenFunnel "tcp" ":443"]) ∧
    (funnel = false → serve = true → listen serve funnel = [SrvCall.ListenTLS "tcp" ":443"]) ∧
    (funnel = false → serve = false → listen serve funnel = [SrvCall.Listen "tcp" ":443"]) := by
  cases serve <;> cases funnel <;> simp [listen]

/-- C8: for every environment, the host name and the state directory are the
value of `TS_HOSTNAME` and `TS_STATE_DIR` verbatim when that value is
non-empty, and `ts-hello-world` and `/var/lib/ts-hello-world` when the variable
is unset or empty; the auth key is the value of `TS_AUTHKEY`, and `""` when it
is unset; each feature flag is true exactly when its variable is set to the
string `true`. -/
theorem config_from_environment (env : Environ) :
    (∀ v, env "TS_HOSTNAME" = some v → v ≠ "" → hostname env = v) ∧
    (env "TS_HOSTNAME" = none ∨ env "TS_HOSTNAME" = some "" →
      hostname env = "ts-hello-world") ∧
    (∀ v, env "TS_STATE_DIR" = some v → v ≠ "" → stateDir env = v) ∧
    (env "TS_STATE_DIR" = none ∨ env "TS_STATE_DIR" = some "" →
      stateDir env = "/var/lib/ts-hello-world") ∧
    (∀ v, env "TS_AUTHKEY" = some v → authKey env = v) ∧
    (env "TS_AUTHKEY" = none → authKey env = "") ∧
    (enableServe env = true ↔ env "TS_ENABLE_SERVE" = some "true") ∧
    (enableFunnel env = true ↔ env "TS_ENABLE_FUNNEL" = some "true") := by
  refine ⟨?_, ?_, ?_, ?_, ?_, ?_, ?_, ?_⟩
  · intro v hv hne
    simp [hostname, envOrDefault, Getenv, hv, hne]
  · rintro (h | h) <;> simp [hostname, envOrDefault, Getenv, h]
  · intro v hv hne
    simp [stateDir, envOrDefault, Getenv, hv, hne]
  · rintro (h | h) <;> simp [stateDir, envOrDefault, Getenv, h]
  · intro v hv
    simp [authKey, Getenv, hv]
  · intro h
    simp [authKey, Getenv, h]
  · unfold enableServe envOrDefault Getenv
    cases h : env "TS_ENABLE_SERVE" with
    | none => simp
    | some v =>
      by_cases hv : v = ""
      · subst hv; simp
      · simp [hv]
  · unfold enableFunnel envOrDefault Getenv
    cases h : env "TS_ENABLE_FUNNEL" with
    | none => simp
    | some v =>
      by_cases hv : v = ""
      · subst hv; simp
      · simp [hv]

/-- C4: when the topology call of `GET /api/status` succeeds, the handler
emits a JSON object in which `hostname`, `serve_enabled`, `funnel_enabled` and
`state_dir` hold the configured values; `version` and `backend_state` are
present exactly when the snapshot is non-nil and hold its values; `self` is
present exactly when the snapshot has a self node, with `name`, `id`,
`addresses` and `online` taken from that node. -/
theorem statusHandler_success (env : Environ) (lc : LocalClient) (status : Option Status)
    (hok : lc.Status = (status, none)) :
    ∃ m : GoMap Value,
      statusHandler env lc =
        { trace := [Event.Status],
          response := some { code := 200, contentType := some "application/json",
                             body := Body.json m } } ∧
      m.get? "hostname" = some (Value.str (hostname env)) ∧
      m.get? "serve_enabled" = some (Value.bool (enableServe env)) ∧
      m.get? "funnel_enabled" = some (Value.bool (enableFunnel env)) ∧
      m.get? "state_dir" = some (Value.str (stateDir env)) ∧
      m.get? "version" = status.map (fun st => Value.str st.Version) ∧
      m.get? "backend_state" = status.map (fun st => Value.str st.BackendState) ∧
      (match status.bind Status.Self with
       | none => m.get? "self" = none
       | some s =>
         ∃ o : GoMap Leaf, m.get? "self" = some (Value.obj o) ∧
           o.get? "name" = some (Leaf.str s.HostName) ∧
           o.get? "id" = some (Leaf.str s.ID) ∧
           o.get? "addresses" = some (Leaf.addrs s.TailscaleIPs) ∧
           o.get? "online" = some (Leaf.bool s.Online)) := by
  refine ⟨statusResponse env status, ?_, ?_⟩
  · simp [statusHandler, hok]
  · cases status with
    | none => simp [statusResponse, GoMap.get?, List.lookup]
    | some st =>
      cases hs : st.Self with
      | none => simp [statusResponse, GoMap.get?, GoMap.set, List.lookup, hs]
      | some s => simp [statusResponse, GoMap.get?, GoMap.set, List.lookup, hs]

/-- Witness of C4: a client that returns a snapshot with a self node. -/
theorem statusHandler_success_witness :
    sampleClient.Status = (some sampleStatus, none) ∧
    ∃ m : GoMap Value,
      statusHandler sampleEnv sampleClient =
        { trace := [Event.Status],
          response := some { code := 200, contentType := some "application/json",
                             body := Body.json m } } ∧
      m.get? "hostname" = some (Value.str (hostname sampleEnv)) ∧
      m.get? "serve_enabled" = some (Value.bool (enableServe sampleEnv)) ∧
      m.get? "funnel_enabled" = some (Value.bool (enableFunnel sampleEnv)) ∧
      m.get? "state_dir" = some (Value.str (stateDir sampleEnv)) ∧
      m.get? "version" = (some sampleStatus).map (fun st => Value.str st.Version) ∧
      m.get? "backend_state" = (some sampleStatus).map (fun st => Value.str st.BackendState) ∧
      (match (some sampleStatus).bind Status.Self with
       | none => m.get? "self" = none
       | some s =>
         ∃ o : GoMap Leaf, m.get? "self" = some (Value.obj o) ∧
           o.get? "name" = some (Leaf.str s.HostName) ∧
           o.get? "id" = some (Leaf.str s.ID) ∧
           o.get? "addresses" = some (Leaf.addrs s.TailscaleIPs) ∧
           o.get? "online" = some (Leaf.bool s.Online)) :=
  ⟨rfl, statusHandler_success sampleEnv sampleClient (some sampleStatus) rfl⟩

/-- C3: for a request header set with distinct names, each carrying at least
one value, the extraction succeeds and the extracted mapping holds `v` under
`k` exactly when `k` is a request header name that starts with `Tailscale`
(case-sensitive) and `v` is that header's first value; so its keys are the
request header names with that prefix, `Tailscale-User-Login` is kept under its
own key with its value, and `X-Other` is absent. -/
theorem extractHeaders_tailscale_only (hdr : List (String × List String))
    (hnd : (hdr.map Prod.fst).Nodup) (hne : ∀ kv ∈ hdr, kv.2 ≠ []) :
    ∃ m : GoMap String, extractHeaders hdr = some m ∧
      (∀ k v, m.get? k = some v ↔ StartsWith k "Tailscale" ∧ ∃ vs, (k, v :: vs) ∈ hdr) ∧
      (∀ k, (m.get? k).isSome ↔ StartsWith k "Tailscale" ∧ k ∈ hdr.map Prod.fst) ∧
      (∀ v vs, ("Tailscale-User-Login", v :: vs) ∈ hdr →
        m.get? "Tailscale-User-Login" = some v) ∧
      m.get? "X-Other" = none := by
  obtain ⟨m, hm, hget⟩ := foldl_headerStep hdr [] hne hnd
  have hget' : ∀ k v, m.get? k = some v ↔
      StartsWith k "Tailscale" ∧ ∃ vs, (k, v :: vs) ∈ hdr := by
    intro k v
    rw [hget]
    simp [GoMap.get?, List.lookup]
  refine ⟨m, hm, hget', ?_, ?_, ?_⟩
  · intro k
    rw [Option.isSome_iff_exists]
    constructor
    · rintro ⟨v, hv⟩
      obtain ⟨hp, vs, hmem⟩ := (hget' k v).mp hv
      exact ⟨hp, List.mem_map.mpr ⟨(k, v :: vs), hmem, rfl⟩⟩
    · rintro ⟨hp, hk⟩
      obtain ⟨⟨k', vs⟩, hmem, hk'⟩ := List.mem_map.mp hk
      simp only at hk'
      subst hk'
      cases vs with
      | nil => exact absurd rfl (hne (k', []) hmem)
      | cons v rest => exact ⟨v, (hget' k' v).mpr ⟨hp, rest, hmem⟩⟩
  · intro v vs hmem
    exact (hget' _ v).mpr ⟨by decide, vs, hmem⟩
  · cases h : m.get? "X-Other" with
    | none => rfl
    | some v => exact absurd ((hget' _ v).mp h).1 (by decide)

/-- Witness of C3: one overlay header and one other header. -/
theorem extractHeaders_tailscale_only_witness :
    (sampleRequest.Header.map Prod.fst).Nodup ∧
    (∀ kv ∈ sampleRequest.Header, kv.2 ≠ []) ∧
    ∃ m : GoMap String, extractHeaders sampleRequest.Header = some m ∧
      (∀ k v, m.get? k = some v ↔
        StartsWith k "Tailscale" ∧ ∃ vs, (k, v :: vs) ∈ sampleRequest.Header) ∧
      (∀ k, (m.get? k).isSome ↔
        StartsWith k "Tailscale" ∧ k ∈ sampleRequest.Header.map Prod.fst) ∧
      (∀ v vs, ("Tailscale-User-Login", v :: vs) ∈ sampleRequest.Header →
        m.get? "Tailscale-User-Login" = some v) ∧
      m.get? "X-Other" = none :=
  ⟨by decide, by decide,
    extractHeaders_tailscale_only sampleRequest.Header (by decide) (by decide)⟩

/-- C7 (amended): on the exact path `/`, when `WhoIs` succeeds and the
`Status` call fails (nil snapshot and an error), the failure is logged and
causes no error response: the handler executes the template `index.html` with
a `PageData` whose node list is empty and whose identity fields, remote
address, feature flags and extracted headers are the ones of a successful run,
and the response is the one the template run produces: status 200 with the
page when the template succeeds; when the template fails, a 500 with the
template's error if nothing had been written, else the 200 already sent, with
the error text after the partial page.  The request headers carry at least one
value each. -/
theorem indexHandler_status_soft_failure (env : Environ) (ro : RangeOrder)
    (lc : LocalClient) (tmpl : String → PageData → TemplateRun) (r : Request)
    (who : WhoIsResponse) (profile : UserProfile) (node : Node) (e : String)
    (hpath : r.Path = "/")
    (hwho : lc.WhoIs r.RemoteAddr = (some who, none))
    (hprofile : who.UserProfile = some profile) (hnode : who.Node = some node)
    (hstatus : lc.Status = (none, some e))
    (hne : ∀ kv ∈ r.Header, kv.2 ≠ []) :
    ∃ (headers : GoMap String) (data : PageData),
      extractHeaders r.Header = some headers ∧
      data =
        { Title := "Tailscale tsnet Demo", UserLogin := profile.LoginName,
          UserName := profile.DisplayName, NodeName := node.ComputedName,
          NodeID := node.ID.String, TailnetName := node.Name, RemoteAddr := r.RemoteAddr,
          EnableServe := enableServe env, EnableFunnel := enableFunnel env,
          Headers := headers, Nodes := [] } ∧
      indexHandler env ro lc tmpl r =
        { trace := [Event.WhoIs r.RemoteAddr, Event.Status,
                    Event.Printf ("Error getting status: " ++ e),
                    Event.ExecuteTemplate "index.html" data],
          response := some
            (match (tmpl "index.html" data).err, (tmpl "index.html" data).written with
             | none, written =>
               { code := 200, contentType := none, body := Body.text (written.getD "") }
             | some msg, none =>
               { code := 500, contentType := some "text/plain; charset=utf-8",
                 body := Body.text (msg ++ "\n") }
             | some msg, some page =>
               { code := 200, contentType := none,
                 body := Body.text (page ++ msg ++ "\n") }) } ∧
      ∀ st : Option Status,
        (indexHandler env ro { lc with Status := (st, none) } tmpl r).trace =
          [Event.WhoIs r.RemoteAddr, Event.Status,
           Event.ExecuteTemplate "index.html" { data with Nodes := buildNodes ro st }] := by
  obtain ⟨headers, hh⟩ := foldl_headerStep_isSome r.Header [] hne
  have hh' : extractHeaders r.Header = some headers := hh
  refine ⟨headers, _, hh', rfl, ?_, ?_⟩
  · unfold indexHandler
    simp only [hpath, hwho, hstatus, hh', hprofile, hnode, buildNodes, templateResponse]
    cases h1 : (tmpl "index.html" _).err <;> cases h2 : (tmpl "index.html" _).written <;>
      simp [httpError, h1, h2]
  · intro st
    unfold indexHandler
    simp only [hpath, hwho, hh', hprofile, hnode]
    simp

/-- Witness of C7: a client whose topology query is refused. -/
theorem indexHandler_status_soft_failure_witness :
    sampleRequest.Path = "/" ∧
    statusFailsClient.WhoIs sampleRequest.RemoteAddr = (some sampleWho, none) ∧
    statusFailsClient.Status = (none, some "connection refused") ∧
    (∀ kv ∈ sampleRequest.Header, kv.2 ≠ []) ∧
    ∃ (headers : GoMap String) (data : PageData),
      extractHeaders sampleRequest.Header = some headers ∧
      data =
        { Title := "Tailscale tsnet Demo", UserLogin := "ann@example.com",
          UserName := "Ann", NodeName := "laptop",
          NodeID := (⟨"nodeid:2a"⟩ : NodeID).String, TailnetName := "laptop.tail.ts.net.",
          RemoteAddr := sampleRequest.RemoteAddr,
          EnableServe := enableServe sampleEnv, EnableFunnel := enableFunnel sampleEnv,
          Headers := headers, Nodes := [] } ∧
      indexHandler sampleEnv rangeReversed statusFailsClient sampleTmpl sampleRequest =
        { trace := [Event.WhoIs sampleRequest.RemoteAddr, Event.Status,
                    Event.Printf ("Error getting status: " ++ "connection refused"),
                    Event.ExecuteTemplate "index.html" data],
          response := some
            (match (sampleTmpl "index.html" data).err,
                   (sampleTmpl "index.html" data).written with
             | none, written =>
               { code := 200, contentType := none, body := Body.text (written.getD "") }
             | some msg, none =>
               { code := 500, contentType := some "text/plain; charset=utf-8",
                 body := Body.text (msg ++ "\n") }
             | some msg, some page =>
               { code := 200, contentType := none,
                 body := Body.text (page ++ msg ++ "\n") }) } ∧
      ∀ st : Option Status,
        (indexHandler sampleEnv rangeReversed { statusFailsClient with Status := (st, none) }
            sampleTmpl sampleRequest).trace =
          [Event.WhoIs sampleRequest.RemoteAddr, Event.Status,
           Event.ExecuteTemplate "index.html"
             { data with Nodes := buildNodes rangeReversed st }] :=
  ⟨rfl, rfl, rfl, by decide,
    indexHandler_status_soft_failure sampleEnv rangeReversed statusFailsClient sampleTmpl
      sampleRequest sampleWho ⟨"ann@example.com", "Ann"⟩
      ⟨⟨"nodeid:2a"⟩, "laptop.tail.ts.net.", "laptop"⟩
      "connection refused" rfl rfl rfl rfl rfl (by decide)⟩

/-- C7 as stated fails: with `WhoIs` succeeding and `Status` failing, a
template that fails before writing anything makes the handler answer with an
error response, a 500 carrying the template's error. -/
theorem indexHandler_status_failure_can_answer_500 :
    sampleRequest.Path = "/" ∧
    statusFailsClient.WhoIs sampleRequest.RemoteAddr = (some sampleWho, none) ∧
    statusFailsClient.Status = (none, some "connection refused") ∧
    (indexHandler sampleEnv rangeAsListed statusFailsClient failingTmpl
        sampleRequest).response =
      some { code := 500, contentType := some "text/plain; charset=utf-8",
             body := Body.text "template: no template index.html\n" } := by
  decide

end TsnetHello
